import Mathlib

/-!
Verification development for the mage repository's two SQL-dialect
conversion scripts, `scripts/convert_h2_to_postgres.py` and
`scripts/convert_h2_to_sqlite.py`.

Strings are modelled as lists of characters (`Str`).  The scripts' regular
expressions are embedded as deterministic scanners that reproduce the
leftmost, greedy/lazy backtracking behaviour of Python's `re` module on the
specific patterns the scripts use.  Character classes (`\w`, `\s`, `\d`) and
`str.upper`/`str.lower` are modelled on their ASCII fragments, which is the
alphabet the SQL dumps use.  Scanners that restart after a replacement are
written with an explicit fuel argument (one unit per scanned position) so
that every definition stays structurally recursive and executable.
-/

abbrev Str := List Char

/-- Python regex word character, ASCII fragment: `[A-Za-z0-9_]`. -/
def isWordChar (c : Char) : Bool := c.isAlphanum || c == '_'

/-- Python regex digit, ASCII fragment: [0-9]. -/
def isDigitChar (c : Char) : Bool := decide (48 ≤ c.toNat ∧ c.toNat ≤ 57)

/-- Python regex whitespace, ASCII fragment: space, tab, LF, CR, VT, FF. -/
def isPySpace (c : Char) : Bool :=
  c == ' ' || c == '\t' || c == '\n' || c == '\r' || c == '\x0b' || c == '\x0c'

/-- Python `str.upper`, modelled on ASCII via `Char.toUpper`. -/
def upperL (s : Str) : Str := s.map Char.toUpper

/-- Python `str.lower`, modelled on ASCII via `Char.toLower`. -/
def lowerL (s : Str) : Str := s.map Char.toLower

/-- `not line.strip()` in Python: the line is empty or all whitespace. -/
def isBlankL (s : Str) : Bool := s.all isPySpace

/-- Case-insensitively strip a literal keyword (given uppercased) from the
front of the input; returns the remainder on success. -/
def stripCI : Str → Str → Option Str
  | [], s => some s
  | _ :: _, [] => none
  | t :: ts, c :: cs => if c.toUpper == t then stripCI ts cs else none

/-- Regex `\s+` when followed by a non-space pattern item: consume a maximal
nonempty whitespace run (backtracking into the run can never help because
the following item starts with a non-space character). -/
def needWS : Str → Option Str
  | [] => none
  | c :: cs => if isPySpace c then some (cs.dropWhile isPySpace) else none

/-- `re.search`: try the anchored matcher at every position, leftmost first. -/
def searchAux {α : Type} (f : Str → Option α) : Str → Option α
  | [] => f []
  | c :: cs =>
    match f (c :: cs) with
    | some a => some a
    | none => searchAux f cs

/-- Does the second list start with the first one (plain, case-sensitive)? -/
def startsWithL : Str → Str → Bool
  | [], _ => true
  | _ :: _, [] => false
  | p :: ps, c :: cs => p == c && startsWithL ps cs

/-- Python `sub in s` substring containment. -/
def containsSubL (pat : Str) : Str → Bool
  | [] => startsWithL pat []
  | c :: cs => startsWithL pat (c :: cs) || containsSubL pat cs

/-- Python `s.replace(old, new, 1)`: replace the first occurrence only. -/
def replaceFirstL (old new : Str) : Str → Str
  | [] => []
  | c :: cs =>
    if startsWithL old (c :: cs) then new ++ (c :: cs).drop old.length
    else c :: replaceFirstL old new cs

/-- Word-boundary check on the rest of the input after a match: the match may
end at end-of-string or before a non-word character. -/
def wordBoundary (r : Str) : Option Str :=
  match r with
  | [] => some []
  | c :: _ => if isWordChar c then none else some r

/-- Anchored matcher for `\s+KW1(\s+KW2)*\b` given the keyword list
(uppercased); returns the remainder after the final word boundary. -/
def matchWsKws : List Str → Str → Option Str
  | [], s => wordBoundary s
  | kw :: kws, s => do
    let r ← needWS s
    let r ← stripCI kw r
    matchWsKws kws r

/-- `re.sub` deleting every occurrence of `\s+KW1(\s+KW2)*\b` (IGNORECASE),
as used for the CACHED and NOT PERSISTENT clause removals. -/
def subKwsGo (kws : List Str) : Nat → Str → Str
  | 0, s => s
  | _ + 1, [] => []
  | fuel + 1, c :: cs =>
    match matchWsKws kws (c :: cs) with
    | some rest => subKwsGo kws fuel rest
    | none => c :: subKwsGo kws fuel cs

def subKws (kws : List Str) (s : Str) : Str := subKwsGo kws (s.length + 1) s

/-- `re.sub` over a matcher whose pattern begins with `\b`: `prev` is the
character just before the current position in the original string (none at
the start).  After a replacement, scanning resumes right after the matched
text, so `prev` becomes the last matched character. -/
def subBoundGo (m : Str → Option Str) (repl : Str) : Nat → Option Char → Str → Str
  | 0, _, s => s
  | _ + 1, _, [] => []
  | fuel + 1, prev, c :: cs =>
    let leftOK : Bool := match prev with | none => true | some p => !isWordChar p
    if leftOK then
      match m (c :: cs) with
      | some rest =>
        let consumed := (c :: cs).take ((c :: cs).length - rest.length)
        repl ++ subBoundGo m repl fuel (some (consumed.getLastD c)) rest
      | none => c :: subBoundGo m repl fuel (some c) cs
    else c :: subBoundGo m repl fuel (some c) cs

/-- Matcher for `\bWORD\b` minus the left boundary (handled by `subBoundGo`):
the keyword (uppercased) followed by a right word boundary. -/
def matchWordCI (tU : Str) (s : Str) : Option Str := do
  let r ← stripCI tU s
  wordBoundary r

/-- `re.sub(r'\bWORD\b', repl, s, flags=re.IGNORECASE)`. -/
def subWordCI (tU repl : Str) (s : Str) : Str :=
  subBoundGo (matchWordCI tU) repl (s.length + 1) none s

/-- Skip-pattern helper: `^\s*KW\s+` after the leading whitespace was
already dropped. -/
def kw1 (kw : Str) (l : Str) : Bool := ((stripCI kw l).bind needWS).isSome

/-- Skip-pattern helper: `^\s*KWA\s+KWB\s+` after the leading whitespace was
already dropped. -/
def kw2 (kwa kwb : Str) (l : Str) : Bool :=
  (((stripCI kwa l).bind needWS).bind fun r => (stripCI kwb r).bind needWS).isSome

/-- Python `content.split('\n')` (keeps empty pieces). -/
def splitNl : Str → List Str
  | [] => [[]]
  | c :: cs =>
    if c == '\n' then [] :: splitNl cs
    else
      match splitNl cs with
      | [] => [[c]]
      | l :: ls => (c :: l) :: ls

/-- Python `f.readlines()` on the file content: split after every newline,
keeping the newline at the end of each line; no empty trailing line. -/
def splitKeepNl : Str → List Str
  | [] => []
  | c :: cs =>
    if c == '\n' then ['\n'] :: splitKeepNl cs
    else
      match splitKeepNl cs with
      | [] => [[c]]
      | l :: ls => (c :: l) :: ls

/-- `'\n'.join`. -/
def joinNl (ls : List Str) : Str := List.intercalate ['\n'] ls

namespace Postgres

/-- The `type_map` dict of `convert_data_type` (lines 23-45), in insertion
order. -/
def type_map : List (Str × Str) :=
  [("VARCHAR_IGNORECASE".data, "TEXT".data),
   ("VARCHAR".data, "VARCHAR".data),
   ("CHAR".data, "CHAR".data),
   ("CLOB".data, "TEXT".data),
   ("LONGVARCHAR".data, "TEXT".data),
   ("INTEGER".data, "INTEGER".data),
   ("INT".data, "INTEGER".data),
   ("BIGINT".data, "BIGINT".data),
   ("SMALLINT".data, "SMALLINT".data),
   ("TINYINT".data, "SMALLINT".data),
   ("BOOLEAN".data, "BOOLEAN".data),
   ("BIT".data, "BOOLEAN".data),
   ("DECIMAL".data, "DECIMAL".data),
   ("DOUBLE".data, ("DOUBLE PRECISION").data),
   ("FLOAT".data, "REAL".data),
   ("REAL".data, "REAL".data),
   ("TIMESTAMP".data, "TIMESTAMP".data),
   ("DATE".data, "DATE".data),
   ("TIME".data, "TIME".data),
   ("BLOB".data, "BYTEA".data),
   ("BINARY".data, "BYTEA".data)]

/-- The size-retaining base types of line 56. -/
def sized_bases : List Str := ["VARCHAR".data, "CHAR".data, "DECIMAL".data]

/-- The optional size group of `re.match(r'(\w+)(\(\d+\))?', u)` (line 48):
after the maximal word run, it matches only a parenthesized pure digit run,
returned here without its parentheses. -/
def size_group (u : Str) : Option Str :=
  match u.dropWhile isWordChar with
  | c :: r =>
    if c == '(' then
      let ds := r.takeWhile isDigitChar
      if ds.isEmpty then none
      else
        match r.dropWhile isDigitChar with
        | c2 :: _ => if c2 == ')' then some ds else none
        | [] => none
    else none
  | [] => none

/-- `convert_data_type` (lines 19-60).  `re.match(r'(\w+)(\(\d+\))?', u)`
takes the maximal word run as the base type.  If the base type has no
mapping (or the input starts with a non-word character, so the regex cannot
match at all), the input is returned unchanged. -/
def convert_data_type (h2_type : Str) : Str :=
  let u := upperL h2_type
  let base := u.takeWhile isWordChar
  if base.isEmpty then h2_type
  else
    match type_map.find? (fun p => p.1 == base) with
    | none => h2_type
    | some p =>
      match size_group u with
      | some ds =>
        if sized_bases.contains base then p.2 ++ '(' :: (ds ++ [')'])
        else p.2
      | none => p.2

/-- `convert_table_name` (lines 63-65). -/
def convert_table_name (name : Str) : Str := lowerL name

/-- `convert_column_name` (lines 68-70). -/
def convert_column_name (name : Str) : Str := lowerL name

/-- `re.search(r'CREATE\s+TABLE\s+(\w+)', s, re.IGNORECASE)`, returning the
captured name as written in the input. -/
def searchCreateTableName (s : Str) : Option Str :=
  searchAux
    (fun t => do
      let r ← stripCI "CREATE".data t
      let r ← needWS r
      let r ← stripCI "TABLE".data r
      let r ← needWS r
      let w := r.takeWhile isWordChar
      if w.isEmpty then none else some w)
    s

/-- The optional size group `\(\d+(?:,\s*\d+)?\)` of the column-definition
pattern (line 96); returns the matched text and the remainder. -/
def matchSizePg (s : Str) : Option (Str × Str) :=
  match s with
  | '(' :: r =>
    let d1 := r.takeWhile isDigitChar
    if d1.isEmpty then none
    else
      match r.dropWhile isDigitChar with
      | ',' :: r2 =>
        let sp := r2.takeWhile isPySpace
        let r3 := r2.dropWhile isPySpace
        let d2 := r3.takeWhile isDigitChar
        if d2.isEmpty then none
        else
          match r3.dropWhile isDigitChar with
          | ')' :: r4 => some ('(' :: d1 ++ ',' :: sp ++ d2 ++ [')'], r4)
          | _ => none
      | ')' :: r2 => some ('(' :: d1 ++ [')'], r2)
      | _ => none
  | _ => none

/-- Lazy `(.*?)(?=,|\))`: scan for the first comma or closing parenthesis;
`.` does not cross a newline.  Returns the consumed text and the remainder
starting at the lookahead character. -/
def lazyDotUntil : Str → Option (Str × Str)
  | [] => none
  | c :: cs =>
    if c == ',' || c == ')' then some ([], c :: cs)
    else if c == '\n' then none
    else
      match lazyDotUntil cs with
      | some (g, r) => some (c :: g, r)
      | none => none

/-- Anchored matcher for the column-definition pattern of lines 95-100,
`(\s+)(\w+)\s+(\w+(?:\(\d+(?:,\s*\d+)?\))?)(.*?)(?=,|\))`, already combined
with the replacement of lines 87-92: on success, returns the replacement
text `indent + lower(name) + ' ' + convert_data_type(type) + rest` and the
remaining input.  If the optional size group matches but no comma or
parenthesis is reachable afterwards, the engine backtracks and retries with
the size group empty. -/
def matchColumnDef (s : Str) : Option (Str × Str) :=
  let ws := s.takeWhile isPySpace
  if ws.isEmpty then none
  else
    let s1 := s.dropWhile isPySpace
    let name := s1.takeWhile isWordChar
    if name.isEmpty then none
    else
      let s2 := s1.dropWhile isWordChar
      let ws2 := s2.takeWhile isPySpace
      if ws2.isEmpty then none
      else
        let s3 := s2.dropWhile isPySpace
        let tw := s3.takeWhile isWordChar
        if tw.isEmpty then none
        else
          let s4 := s3.dropWhile isWordChar
          let attempt1 : Option (Str × Str) :=
            match matchSizePg s4 with
            | some (sz, s5) =>
              match lazyDotUntil s5 with
              | some (g4, rest) =>
                some (ws ++ convert_column_name name ++
                      ' ' :: convert_data_type (tw ++ sz) ++ g4, rest)
              | none => none
            | none => none
          match attempt1 with
          | some res => some res
          | none =>
            match lazyDotUntil s4 with
            | some (g4, rest) =>
              some (ws ++ convert_column_name name ++
                    ' ' :: convert_data_type tw ++ g4, rest)
            | none => none

/-- The `re.sub` scan applying `matchColumnDef` at every position, leftmost
first, non-overlapping. -/
def subColumnsGo : Nat → Str → Str
  | 0, s => s
  | _ + 1, [] => []
  | fuel + 1, c :: cs =>
    match matchColumnDef (c :: cs) with
    | some (repl, rest) => repl ++ subColumnsGo fuel rest
    | none => c :: subColumnsGo fuel cs

/-- `convert_create_table` (lines 73-102). -/
def convert_create_table (statement : Str) : Str :=
  let s1 := subKws ["CACHED".data] statement
  let s2 := subKws ["NOT".data, "PERSISTENT".data] s1
  let s3 :=
    match searchCreateTableName s2 with
    | some old => replaceFirstL old (convert_table_name old) s2
    | none => s2
  subColumnsGo (s3.length + 1) s3

/-- `re.search(r'INSERT\s+INTO\s+(\w+)', s, re.IGNORECASE)`. -/
def searchInsertIntoName (s : Str) : Option Str :=
  searchAux
    (fun t => do
      let r ← stripCI "INSERT".data t
      let r ← needWS r
      let r ← stripCI "INTO".data r
      let r ← needWS r
      let w := r.takeWhile isWordChar
      if w.isEmpty then none else some w)
    s

/-- `convert_insert` (lines 105-119): lower-case the table name by replacing
the literal text `INSERT INTO <name>` once, then force boolean literals to
upper case. -/
def convert_insert (statement : Str) : Str :=
  let s1 :=
    match searchInsertIntoName statement with
    | some old =>
      replaceFirstL ("INSERT INTO ".data ++ old)
        ("INSERT INTO ".data ++ convert_table_name old) statement
    | none => statement
  subWordCI "FALSE".data "FALSE".data (subWordCI "TRUE".data "TRUE".data s1)

/-- `re.search(r'ON\s+(\w+)', s, re.IGNORECASE)`. -/
def searchOnName (s : Str) : Option Str :=
  searchAux
    (fun t => do
      let r ← stripCI "ON".data t
      let r ← needWS r
      let w := r.takeWhile isWordChar
      if w.isEmpty then none else some w)
    s

/-- Anchored matcher for `(ON\s+)OLD` (IGNORECASE): returns the text of the
first group (the `ON` and the whitespace as written) and the remainder. -/
def matchOnName (old : Str) (s : Str) : Option (Str × Str) :=
  match s with
  | c1 :: c2 :: r =>
    if c1.toUpper == 'O' && c2.toUpper == 'N' then
      let sp := r.takeWhile isPySpace
      if sp.isEmpty then none
      else
        match stripCI (upperL old) (r.dropWhile isPySpace) with
        | some rest => some (c1 :: c2 :: sp, rest)
        | none => none
    else none
  | _ => none

/-- The `re.sub(r'(ON\s+)' + old, r'\1' + new, s, flags=re.IGNORECASE)` scan
of lines 129-134. -/
def subOnGo (old new : Str) : Nat → Str → Str
  | 0, s => s
  | _ + 1, [] => []
  | fuel + 1, c :: cs =>
    match matchOnName old (c :: cs) with
    | some (g1, rest) => g1 ++ new ++ subOnGo old new fuel rest
    | none => c :: subOnGo old new fuel cs

/-- `convert_create_index` (lines 122-136). -/
def convert_create_index (statement : Str) : Str :=
  match searchOnName statement with
  | some old => subOnGo old (convert_table_name old) (statement.length + 1) statement
  | none => statement

/-- `should_skip_line` (lines 139-152). -/
def should_skip_line (line : Str) : Bool :=
  let l := line.dropWhile isPySpace
  kw1 "SET".data l || kw2 "CREATE".data "USER".data l ||
    kw2 "CREATE".data "SCHEMA".data l || kw1 "GRANT".data l

/-- Matcher for `\bSTART\s+WITH\b` minus the left boundary. -/
def matchStartWith (s : Str) : Option Str := do
  let r ← stripCI "START".data s
  let r ← needWS r
  let r ← stripCI "WITH".data r
  wordBoundary r

/-- `re.search(r'CREATE\s+SEQUENCE\s+(\w+)', s, re.IGNORECASE)`. -/
def searchCreateSequenceName (s : Str) : Option Str :=
  searchAux
    (fun t => do
      let r ← stripCI "CREATE".data t
      let r ← needWS r
      let r ← stripCI "SEQUENCE".data r
      let r ← needWS r
      let w := r.takeWhile isWordChar
      if w.isEmpty then none else some w)
    s

/-- `convert_sequence` (lines 155-168). -/
def convert_sequence (statement : Str) : Str :=
  let s1 := subBoundGo matchStartWith "START".data (statement.length + 1) none statement
  match searchCreateSequenceName s1 with
  | some old => replaceFirstL old (convert_table_name old) s1
  | none => s1

/-- `re.search(r'ALTER\s+SEQUENCE\s+(\w+)', s, re.IGNORECASE)`. -/
def searchAlterSequenceName (s : Str) : Option Str :=
  searchAux
    (fun t => do
      let r ← stripCI "ALTER".data t
      let r ← needWS r
      let r ← stripCI "SEQUENCE".data r
      let r ← needWS r
      let w := r.takeWhile isWordChar
      if w.isEmpty then none else some w)
    s

/-- The statement kinds distinguished by the dispatch chain of lines
209-235. -/
inductive Kind where
  | create_table
  | insert
  | create_index
  | create_sequence
  | alter_sequence
  | other
deriving DecidableEq

/-- The if/elif classification of lines 209-235: case-insensitive substring
containment tested in a fixed priority order, defaulting to `other`. -/
def classify (stmt : Str) : Kind :=
  let u := upperL stmt
  if containsSubL "CREATE TABLE".data u then .create_table
  else if containsSubL "INSERT INTO".data u then .insert
  else if containsSubL "CREATE INDEX".data u then .create_index
  else if containsSubL "CREATE SEQUENCE".data u then .create_sequence
  else if containsSubL "ALTER SEQUENCE".data u then .alter_sequence
  else .other

/-- The per-kind rewrite applied by the dispatch chain (the `ALTER SEQUENCE`
branch is inlined in the Python loop, lines 224-232). -/
def rewrite_statement (stmt : Str) : Str :=
  match classify stmt with
  | .create_table => convert_create_table stmt
  | .insert => convert_insert stmt
  | .create_index => convert_create_index stmt
  | .create_sequence => convert_sequence stmt
  | .alter_sequence =>
    match searchAlterSequenceName stmt with
    | some old => replaceFirstL old (convert_table_name old) stmt
    | none => stmt
  | .other => stmt

/-- The `stats` tally of lines 200-207. -/
structure Stats where
  create_table : Nat
  insert : Nat
  create_index : Nat
  create_sequence : Nat
  alter_sequence : Nat
  other : Nat
deriving DecidableEq

def Stats.zero : Stats := ⟨0, 0, 0, 0, 0, 0⟩

/-- Sum of all six per-kind counters. -/
def Stats.total (s : Stats) : Nat :=
  s.create_table + s.insert + s.create_index + s.create_sequence +
    s.alter_sequence + s.other

/-- Increment the counter of one kind. -/
def bump (k : Kind) (s : Stats) : Stats :=
  match k with
  | .create_table => { s with create_table := s.create_table + 1 }
  | .insert => { s with insert := s.insert + 1 }
  | .create_index => { s with create_index := s.create_index + 1 }
  | .create_sequence => { s with create_sequence := s.create_sequence + 1 }
  | .alter_sequence => { s with alter_sequence := s.alter_sequence + 1 }
  | .other => { s with other := s.other + 1 }

/-- One iteration of the statement-splitting loop of lines 183-196.  State:
statements emitted so far and the current accumulation. -/
def segStep (st : List Str × List Str) (line : Str) : List Str × List Str :=
  if isBlankL line then st
  else if should_skip_line line then st
  else
    let acc := st.2 ++ [line]
    if line.contains ';' then (st.1 ++ [joinNl acc], []) else (st.1, acc)

/-- The statement segmenter: fold the splitting loop over the lines; a
trailing accumulation without a semicolon is never flushed. -/
def segmentLines (lines : List Str) : List Str :=
  (lines.foldl segStep ([], [])).1

/-- Per-kind tally over the segmented statements (lines 209-235). -/
def statsOf (stmts : List Str) : Stats :=
  stmts.foldl (fun st stmt => bump (classify stmt) st) Stats.zero

/-- The converted statement list (lines 209-235). -/
def convertedOf (stmts : List Str) : List Str :=
  stmts.map rewrite_statement

/-- The whole pipeline on a line list: output text and tally. -/
def convertLines (lines : List Str) : Str × Stats :=
  let stmts := segmentLines lines
  (joinNl (convertedOf stmts), statsOf stmts)

/-- `convert_h2_to_postgres` (lines 171-248), as a pure function from the
input file content to the output file content and the reported tally. -/
def convert_h2_to_postgres (content : Str) : Str × Stats :=
  convertLines (splitNl content)

end Postgres

namespace Sqlite

/-- The `type_map` dict of the SQLite `convert_data_type` (lines 25-47), in
insertion order; lookup is by prefix test in this order (lines 49-51). -/
def type_map : List (Str × Str) :=
  [("VARCHAR".data, "TEXT".data),
   ("VARCHAR_IGNORECASE".data, "TEXT".data),
   ("CHAR".data, "TEXT".data),
   ("CLOB".data, "TEXT".data),
   ("LONGVARCHAR".data, "TEXT".data),
   ("INTEGER".data, "INTEGER".data),
   ("INT".data, "INTEGER".data),
   ("BIGINT".data, "INTEGER".data),
   ("SMALLINT".data, "INTEGER".data),
   ("TINYINT".data, "INTEGER".data),
   ("BOOLEAN".data, "INTEGER".data),
   ("BIT".data, "INTEGER".data),
   ("DECIMAL".data, "REAL".data),
   ("DOUBLE".data, "REAL".data),
   ("FLOAT".data, "REAL".data),
   ("REAL".data, "REAL".data),
   ("TIMESTAMP".data, "INTEGER".data),
   ("DATE".data, "INTEGER".data),
   ("TIME".data, "INTEGER".data),
   ("BLOB".data, "BLOB".data),
   ("BINARY".data, "BLOB".data)]

/-- `re.sub(r'\(\d+\)', '', s)` (line 23): delete every parenthesized pure
digit run. -/
def removeSizesGo : Nat → Str → Str
  | 0, s => s
  | _ + 1, [] => []
  | fuel + 1, c :: cs =>
    if c == '(' then
      let ds := cs.takeWhile isDigitChar
      if ds.isEmpty then c :: removeSizesGo fuel cs
      else
        match cs.dropWhile isDigitChar with
        | c2 :: rest => if c2 == ')' then removeSizesGo fuel rest else c :: removeSizesGo fuel cs
        | [] => c :: removeSizesGo fuel cs
    else c :: removeSizesGo fuel cs

def removeSizes (s : Str) : Str := removeSizesGo (s.length + 1) s

/-- `convert_data_type` (lines 18-53): uppercase, strip single-number size
suffixes, then return the value of the first map entry whose key is a prefix
of the result, defaulting to TEXT. -/
def convert_data_type (h2_type : Str) : Str :=
  let u := removeSizes (upperL h2_type)
  match type_map.find? (fun p => startsWithL p.1 u) with
  | some p => p.2
  | none => "TEXT".data

/-- `convert_boolean` (lines 56-62); defined by the script but not called
from its pipeline. -/
def convert_boolean (value : Str) : Str :=
  if upperL value == "TRUE".data then "1".data
  else if upperL value == "FALSE".data then "0".data
  else value

/-- Anchored matcher for the type-rewrite pattern of line 75,
`(\s+)(\w+(?:\(\d+\))?)\s*(?=,|\))`, combined with the replacement of lines
72-73: returns the replacement text `indent + convert_data_type(token)` and
the remaining input (starting at the lookahead character). -/
def matchTypeToken (s : Str) : Option (Str × Str) :=
  let ws := s.takeWhile isPySpace
  if ws.isEmpty then none
  else
    let s1 := s.dropWhile isPySpace
    let w := s1.takeWhile isWordChar
    if w.isEmpty then none
    else
      let s2 := s1.dropWhile isWordChar
      let p :=
        match s2 with
        | '(' :: r =>
          let ds := r.takeWhile isDigitChar
          if ds.isEmpty then (w, s2)
          else
            match r.dropWhile isDigitChar with
            | ')' :: rest => (w ++ '(' :: (ds ++ [')']), rest)
            | _ => (w, s2)
        | _ => (w, s2)
      match p.2.dropWhile isPySpace with
      | c :: rest => if c == ',' || c == ')' then some (ws ++ convert_data_type p.1, c :: rest) else none
      | [] => none

/-- The `re.sub` scan applying `matchTypeToken` at every position. -/
def subTypesGo : Nat → Str → Str
  | 0, s => s
  | _ + 1, [] => []
  | fuel + 1, c :: cs =>
    match matchTypeToken (c :: cs) with
    | some (repl, rest) => repl ++ subTypesGo fuel rest
    | none => c :: subTypesGo fuel cs

/-- `convert_create_table` (lines 65-77). -/
def convert_create_table (line : Str) : Str :=
  let s1 := subKws ["CACHED".data] line
  let s2 := subKws ["NOT".data, "PERSISTENT".data] s1
  subTypesGo (s2.length + 1) s2

/-- `convert_insert` (lines 80-89): booleans to 1/0, NULL rewritten to
itself. -/
def convert_insert (line : Str) : Str :=
  let s1 := subWordCI "TRUE".data "1".data line
  let s2 := subWordCI "FALSE".data "0".data s1
  subWordCI "NULL".data "NULL".data s2

/-- `should_skip_line` (lines 92-108); unlike the Postgres variant it also
drops sequence statements and comment lines. -/
def should_skip_line (line : Str) : Bool :=
  let l := line.dropWhile isPySpace
  kw1 "SET".data l || kw2 "ALTER".data "SEQUENCE".data l ||
    kw2 "CREATE".data "SEQUENCE".data l || kw2 "CREATE".data "USER".data l ||
    kw2 "CREATE".data "SCHEMA".data l || kw1 "GRANT".data l ||
    startsWithL "--".data l

/-- `re.match(r'^\s*CREATE\s+TABLE\s+', line, re.IGNORECASE)` (line 141). -/
def isCreateTableStart (line : Str) : Bool :=
  kw2 "CREATE".data "TABLE".data (line.dropWhile isPySpace)

/-- `re.match(r'^\s*INSERT\s+INTO\s+', line, re.IGNORECASE)` (line 160). -/
def isInsertStart (line : Str) : Bool :=
  kw2 "INSERT".data "INTO".data (line.dropWhile isPySpace)

/-- `re.match(r'^\s*CREATE\s+INDEX\s+', line, re.IGNORECASE)` (line 168). -/
def isIndexStart (line : Str) : Bool :=
  kw2 "CREATE".data "INDEX".data (line.dropWhile isPySpace)

/-- The loop state of `convert_h2_to_sqlite` (lines 111-175): emitted lines,
the CREATE TABLE accumulation flag and buffer, and the counters (the
`total_lines` entry of the Python stats dict is just the input line count
and is kept outside the state). -/
structure St where
  converted : List Str
  in_create_table : Bool
  buffer : List Str
  skipped_lines : Nat
  create_tables : Nat
  inserts : Nat
  converted_lines : Nat
deriving DecidableEq

def St.init : St := ⟨[], false, [], 0, 0, 0, 0⟩

/-- One iteration of the line loop (lines 130-175), with the branches in the
source's order: blank, skip, CREATE TABLE start, inside a CREATE TABLE
buffer, INSERT, CREATE INDEX, everything else. -/
def step (st : St) (line : Str) : St :=
  if isBlankL line then st
  else if should_skip_line line then
    { st with skipped_lines := st.skipped_lines + 1 }
  else if isCreateTableStart line then
    { st with in_create_table := true, buffer := [line] }
  else if st.in_create_table then
    let buf := st.buffer ++ [line]
    if line.contains ';' then
      { st with
        converted := st.converted ++ [convert_create_table buf.flatten],
        create_tables := st.create_tables + 1,
        converted_lines := st.converted_lines + 1,
        in_create_table := false,
        buffer := [] }
    else { st with buffer := buf }
  else if isInsertStart line then
    { st with
      converted := st.converted ++ [convert_insert line],
      inserts := st.inserts + 1,
      converted_lines := st.converted_lines + 1 }
  else if isIndexStart line then
    { st with
      converted := st.converted ++ [line],
      converted_lines := st.converted_lines + 1 }
  else
    { st with
      converted := st.converted ++ [line],
      converted_lines := st.converted_lines + 1 }

/-- Fold the line loop over the input lines. -/
def runLines (lines : List Str) : St := lines.foldl step St.init

/-- `convert_h2_to_sqlite` (lines 111-187) as a pure function from the input
file content to the output file content (`f_out.writelines`) and the final
loop state; a pending CREATE TABLE buffer at end of input is dropped. -/
def convert_h2_to_sqlite (content : Str) : Str × St :=
  let st := runLines (splitKeepNl content)
  (st.converted.flatten, st)

end Sqlite

/-! ### Helper lemmas about characters and list runs -/

theorem charToNat_inj {a b : Char} (h : a.toNat = b.toNat) : a = b := by
  have h2 := Char.ofNat_toNat a
  rw [h, Char.ofNat_toNat] at h2
  exact h2.symm

theorem toNat_ofNat_small {n : Nat} (h2 : n ≤ 122) : (Char.ofNat n).toNat = n := by
  rw [Char.ofNat, dif_pos (by left; omega)]
  simp [Char.ofNatAux, Char.toNat, UInt32.toNat, UInt32.ofNat']

/-- Inverting ASCII upper-casing: if a character upper-cases to the letter
`A` (whose lower-case partner is `a`), it was `A` or `a`. -/
theorem toUpper_inv {c A a : Char} (hA : A.toNat + 32 = a.toNat) (h : c.toUpper = A) :
    c = A ∨ c = a := by
  simp only [Char.toUpper] at h
  split at h
  · right
    have h1 : (Char.ofNat (c.toNat - 32)).toNat = c.toNat - 32 := toNat_ofNat_small (by omega)
    rw [h] at h1
    exact charToNat_inj (by omega)
  · exact Or.inl h

theorem toUpper_of_digit {c : Char} (h : isDigitChar c = true) : c.toUpper = c := by
  have hd := of_decide_eq_true h
  simp only [Char.toUpper]
  rw [if_neg (by omega)]

theorem toLower_idem (c : Char) : c.toLower.toLower = c.toLower := by
  by_cases h : c.toNat ≥ 65 ∧ c.toNat ≤ 90
  · have e1 : c.toLower = Char.ofNat (c.toNat + 32) := by
      simp only [Char.toLower]
      rw [if_pos h]
    rw [e1]
    simp only [Char.toLower]
    rw [if_neg]
    rw [toNat_ofNat_small (by omega)]
    omega
  · have e1 : c.toLower = c := by
      simp only [Char.toLower]
      rw [if_neg h]
    rw [e1, e1]

theorem upperL_digits {ds : Str} (h : ∀ c ∈ ds, isDigitChar c = true) :
    upperL ds = ds := by
  induction ds with
  | nil => rfl
  | cons c cs ih =>
    simp only [upperL, List.map_cons]
    rw [toUpper_of_digit (h c (List.mem_cons_self c cs)),
      show List.map Char.toUpper cs = upperL cs from rfl,
      ih fun a ha => h a (List.mem_cons_of_mem c ha)]

theorem takeWhile_append_of_all {p : Char → Bool} {l₁ : Str} (l₂ : Str)
    (h : ∀ a ∈ l₁, p a = true) :
    (l₁ ++ l₂).takeWhile p = l₁ ++ l₂.takeWhile p := by
  induction l₁ with
  | nil => rfl
  | cons c cs ih =>
    simp only [List.cons_append, List.takeWhile_cons, h c (List.mem_cons_self c cs), if_true]
    rw [ih fun a ha => h a (List.mem_cons_of_mem c ha)]

theorem dropWhile_append_of_all {p : Char → Bool} {l₁ : Str} (l₂ : Str)
    (h : ∀ a ∈ l₁, p a = true) :
    (l₁ ++ l₂).dropWhile p = l₂.dropWhile p := by
  induction l₁ with
  | nil => rfl
  | cons c cs ih =>
    simp only [List.cons_append, List.dropWhile_cons, h c (List.mem_cons_self c cs), if_true]
    exact ih fun a ha => h a (List.mem_cons_of_mem c ha)

/-- A run of `p`-characters followed by a non-`p` character is exactly what
`takeWhile` captures. -/
theorem takeWhile_run_stop {p : Char → Bool} {l₁ : Str} {c : Char} (l₂ : Str)
    (h : ∀ a ∈ l₁, p a = true) (hc : p c = false) :
    (l₁ ++ c :: l₂).takeWhile p = l₁ := by
  rw [takeWhile_append_of_all (c :: l₂) h, List.takeWhile_cons, hc]
  simp

theorem dropWhile_run_stop {p : Char → Bool} {l₁ : Str} {c : Char} (l₂ : Str)
    (h : ∀ a ∈ l₁, p a = true) (hc : p c = false) :
    (l₁ ++ c :: l₂).dropWhile p = c :: l₂ := by
  rw [dropWhile_append_of_all (c :: l₂) h, List.dropWhile_cons, hc]
  simp

/-! ### Claim theorems -/

/-- C1.  The claim says the Postgres CreateTable rewriter lower-cases the
table name and each column name, mapping each column type, so that
`CREATE TABLE Users (Id INTEGER, Name VARCHAR(50));` becomes
`CREATE TABLE users (id INTEGER, name VARCHAR(50));`.  On this single-line
statement the column-definition regex of line 96 also matches the text
`TABLE users (Id INTEGER` (treating the keyword `TABLE` as a column name and
`users` as its type, and swallowing the first real column in the
unconverted trailing group), so the code actually lower-cases the keyword
`TABLE` and leaves the column `Id` unconverted: the output is
`CREATE table users (Id INTEGER, name VARCHAR(50));`, contradicting both
the claim and the script's own description of the pattern as matching
column definitions. -/
theorem claim_C1 :
    Postgres.convert_create_table "CREATE TABLE Users (Id INTEGER, Name VARCHAR(50));".data
        = "CREATE table users (Id INTEGER, name VARCHAR(50));".data ∧
      Postgres.convert_create_table "CREATE TABLE Users (Id INTEGER, Name VARCHAR(50));".data
        ≠ "CREATE TABLE users (id INTEGER, name VARCHAR(50));".data := by
  decide

/-- C2, counterexample.  The claim says the Postgres Type Mapper reattaches
the original size suffix verbatim for `DECIMAL(n,m)`; but the size group
`(\(\d+\))?` of line 48 cannot match a two-number suffix, so
`DECIMAL(10,2)` maps to bare `DECIMAL`. -/
theorem claim_C2_counterexample :
    Postgres.convert_data_type "DECIMAL(10,2)".data = "DECIMAL".data ∧
      Postgres.convert_data_type "DECIMAL(10,2)".data ≠ "DECIMAL(10,2)".data := by
  decide

/-- C3, counterexample.  The claim says that a token whose base name has no
entry in the SQLite mapping table maps to `TEXT`; but the SQLite lookup of
lines 49-51 is a prefix test, so `INT8` (base name `INT8`, no entry) maps
to `INTEGER` via the `INT` entry. -/
theorem claim_C3_counterexample :
    Sqlite.type_map.find? (fun p => p.1 == "INT8".data) = none ∧
      (upperL "INT8".data).takeWhile isWordChar = "INT8".data ∧
      Sqlite.convert_data_type "INT8".data = "INTEGER".data ∧
      Sqlite.convert_data_type "INT8".data ≠ "TEXT".data := by
  decide

/-- C3, amended.  The Postgres Type Mapper returns every token whose base
name has no entry unchanged; the SQLite Type Mapper returns TEXT exactly
when no map key is a prefix of the size-stripped upper-cased token (a token
whose base name has no entry can still be mapped through a key that is a
proper prefix of it, as C3's counterexample INT8 shows). -/
theorem claim_C3 :
    (∀ t : Str,
        Postgres.type_map.find? (fun p => p.1 == (upperL t).takeWhile isWordChar) = none →
        Postgres.convert_data_type t = t) ∧
      ∀ t : Str,
        Sqlite.type_map.find? (fun p => startsWithL p.1 (Sqlite.removeSizes (upperL t))) = none →
        Sqlite.convert_data_type t = "TEXT".data := by
  constructor
  · intro t h
    simp [Postgres.convert_data_type, h]
  · intro t h
    simp [Sqlite.convert_data_type, h]

/-- C3, witness: the type GEOMETRY has no entry in either table and no
SQLite key is a prefix of it; the Postgres mapper passes it through and the
SQLite mapper falls back to TEXT. -/
theorem claim_C3_witness :
    Postgres.convert_data_type "GEOMETRY".data = "GEOMETRY".data ∧
      Sqlite.convert_data_type "GEOMETRY".data = "TEXT".data :=
  ⟨claim_C3.1 "GEOMETRY".data (by decide), claim_C3.2 "GEOMETRY".data (by decide)⟩

/-- C9.  The boolean substitutions of both Insert rewriters are plain
word-boundary regex substitutions over the whole statement text, so they
also rewrite the word true inside a quoted string value: the SQLite
rewriter turns it into 1 and the Postgres rewriter upper-cases it,
altering the string data. -/
theorem claim_C9 :
    Sqlite.convert_insert "INSERT INTO t VALUES ('this is true');".data
        = "INSERT INTO t VALUES ('this is 1');".data ∧
      Postgres.convert_insert "INSERT INTO t VALUES ('this is true');".data
        = "INSERT INTO t VALUES ('this is TRUE');".data := by
  decide

/-! ### Size-suffix lemmas for the two type mappers -/

theorem isEmpty_false_of_ne {l : Str} (h : l ≠ []) : l.isEmpty = false := by
  cases l with
  | nil => exact absurd rfl h
  | cons c cs => rfl

theorem digit_ne_paren {c : Char} (h : isDigitChar c = true) : (c == '(') = false := by
  have hd := of_decide_eq_true h
  have hne : c ≠ '(' := by
    intro he
    rw [he, show ('(' : Char).toNat = 40 from by decide] at hd
    omega
  simpa using hne

theorem map_toUpper_digits {ds : Str} (h : ∀ c ∈ ds, isDigitChar c = true) :
    List.map Char.toUpper ds = ds := upperL_digits h

/-- Upper-casing fixes a word-plus-size token whose word part is already
upper-case-fixed and whose size part is a digit run. -/
theorem upperL_append_size {w ds : Str} (hupper : List.map Char.toUpper w = w)
    (hds : ∀ c ∈ ds, isDigitChar c = true) :
    upperL (w ++ '(' :: (ds ++ [')'])) = w ++ '(' :: (ds ++ [')']) := by
  simp only [upperL, List.map_append, List.map_cons, List.map_nil, hupper,
    map_toUpper_digits hds, show Char.toUpper '(' = '(' by decide,
    show Char.toUpper ')' = ')' by decide]

/-- What the Postgres type mapper does on a token `WORD(digits)`. -/
theorem pg_conv_append_size {w ds : Str} (hw : w ≠ [])
    (hword : ∀ a ∈ w, isWordChar a = true) (hupper : List.map Char.toUpper w = w)
    (hne : ds ≠ []) (hds : ∀ c ∈ ds, isDigitChar c = true) :
    Postgres.convert_data_type (w ++ '(' :: (ds ++ [')'])) =
      match Postgres.type_map.find? (fun p => p.1 == w) with
      | none => w ++ '(' :: (ds ++ [')'])
      | some p =>
        if Postgres.sized_bases.contains w then p.2 ++ '(' :: (ds ++ [')']) else p.2 := by
  simp only [Postgres.convert_data_type, Postgres.size_group, upperL_append_size hupper hds]
  rw [takeWhile_run_stop (ds ++ [')']) hword (by decide),
    dropWhile_run_stop (ds ++ [')']) hword (by decide)]
  simp only [isEmpty_false_of_ne hw, Bool.false_eq_true, if_false, beq_self_eq_true, if_true]
  rw [takeWhile_run_stop [] hds (by decide), dropWhile_run_stop [] hds (by decide)]
  simp only [isEmpty_false_of_ne hne, Bool.false_eq_true, if_false, beq_self_eq_true, if_true]

theorem removeSizesGo_nil (fuel : Nat) : Sqlite.removeSizesGo fuel [] = [] := by
  cases fuel <;> rfl

/-- The size-stripping scan passes over a parenthesis-free prefix unchanged. -/
theorem removeSizesGo_clean (w : Str) (hw : ∀ c ∈ w, (c == '(') = false)
    (rest : Str) (fuel : Nat) :
    Sqlite.removeSizesGo (w.length + fuel) (w ++ rest) = w ++ Sqlite.removeSizesGo fuel rest := by
  induction w with
  | nil => simp
  | cons c cs ih =>
    rw [show (c :: cs).length + fuel = (cs.length + fuel) + 1 by
        rw [List.length_cons]; omega]
    simp only [List.cons_append, Sqlite.removeSizesGo, hw c (List.mem_cons_self c cs),
      Bool.false_eq_true, if_false, List.append_eq]
    rw [ih fun a ha => hw a (List.mem_cons_of_mem c ha)]

/-- The size-stripping scan leaves a parenthesis-free string unchanged when
enough fuel remains. -/
theorem removeSizesGo_all_clean (w : Str) (hw : ∀ c ∈ w, (c == '(') = false)
    (fuel : Nat) (hfuel : w.length ≤ fuel) : Sqlite.removeSizesGo fuel w = w := by
  have h0 : Sqlite.removeSizesGo (w.length + (fuel - w.length)) (w ++ []) =
      w ++ Sqlite.removeSizesGo (fuel - w.length) [] := removeSizesGo_clean w hw [] _
  rw [show w.length + (fuel - w.length) = fuel by omega, removeSizesGo_nil] at h0
  simpa using h0

/-- The size-stripping scan deletes a well-formed parenthesized digit run. -/
theorem removeSizesGo_paren {ds : Str} (hne : ds ≠ [])
    (hds : ∀ c ∈ ds, isDigitChar c = true) (rest : Str) (fuel : Nat) :
    Sqlite.removeSizesGo (fuel + 1) ('(' :: (ds ++ ')' :: rest)) =
      Sqlite.removeSizesGo fuel rest := by
  simp only [Sqlite.removeSizesGo, beq_self_eq_true, if_true]
  rw [takeWhile_run_stop rest hds (by decide), dropWhile_run_stop rest hds (by decide)]
  simp only [isEmpty_false_of_ne hne, Bool.false_eq_true, if_false, beq_self_eq_true, if_true]

/-- The size-stripping scan keeps a parenthesis whose digit run is followed
by a comma (the `(n,m)` shape the pattern cannot match). -/
theorem removeSizesGo_paren_comma {d1 : Str} (h1 : d1 ≠ [])
    (hd1 : ∀ c ∈ d1, isDigitChar c = true) (rest : Str) (fuel : Nat) :
    Sqlite.removeSizesGo (fuel + 1) ('(' :: (d1 ++ ',' :: rest)) =
      '(' :: Sqlite.removeSizesGo fuel (d1 ++ ',' :: rest) := by
  simp only [Sqlite.removeSizesGo, beq_self_eq_true, if_true]
  rw [takeWhile_run_stop rest hd1 (by decide), dropWhile_run_stop rest hd1 (by decide)]
  simp only [isEmpty_false_of_ne h1, Bool.false_eq_true, if_false,
    show ((',' : Char) == ')') = false by decide, if_false]

/-- `removeSizes` on a token `WORD(digits)` with a parenthesis-free word
part strips the size. -/
theorem removeSizes_append_size {w ds : Str} (hpar : ∀ c ∈ w, (c == '(') = false)
    (hne : ds ≠ []) (hds : ∀ c ∈ ds, isDigitChar c = true) :
    Sqlite.removeSizes (w ++ '(' :: (ds ++ [')'])) = w := by
  unfold Sqlite.removeSizes
  rw [show (w ++ '(' :: (ds ++ [')'])).length + 1 = w.length + (ds.length + 3) by
      simp [List.length_append]; omega]
  rw [removeSizesGo_clean w hpar _ _,
    show ds.length + 3 = (ds.length + 2) + 1 from rfl,
    removeSizesGo_paren hne hds [] _, removeSizesGo_nil]
  simp

/-- What the SQLite type mapper does on a token `WORD(digits)`: the size is
stripped before the prefix lookup. -/
theorem lite_conv_append_size {w ds : Str} (hpar : ∀ c ∈ w, (c == '(') = false)
    (hupper : List.map Char.toUpper w = w) (hne : ds ≠ [])
    (hds : ∀ c ∈ ds, isDigitChar c = true) :
    Sqlite.convert_data_type (w ++ '(' :: (ds ++ [')'])) =
      match Sqlite.type_map.find? (fun p => startsWithL p.1 w) with
      | some p => p.2
      | none => "TEXT".data := by
  simp only [Sqlite.convert_data_type, upperL_append_size hupper hds,
    removeSizes_append_size hpar hne hds]

/-- The Postgres type mapper drops a two-number `DECIMAL(n,m)` size suffix:
the size group only admits a single digit run. -/
theorem pg_conv_decimal_nm {d1 d2 : Str} (h1 : d1 ≠ [])
    (hd1 : ∀ c ∈ d1, isDigitChar c = true) (hd2 : ∀ c ∈ d2, isDigitChar c = true) :
    Postgres.convert_data_type ("DECIMAL".data ++ '(' :: (d1 ++ ',' :: (d2 ++ [')'])))
      = "DECIMAL".data := by
  have hu : upperL ("DECIMAL".data ++ '(' :: (d1 ++ ',' :: (d2 ++ [')'])))
      = "DECIMAL".data ++ '(' :: (d1 ++ ',' :: (d2 ++ [')'])) := by
    simp only [upperL, List.map_append, List.map_cons, List.map_nil,
      map_toUpper_digits hd1, map_toUpper_digits hd2,
      show Char.toUpper '(' = '(' by decide, show Char.toUpper ')' = ')' by decide,
      show Char.toUpper ',' = ',' by decide,
      show List.map Char.toUpper "DECIMAL".data = "DECIMAL".data by decide]
  simp only [Postgres.convert_data_type, Postgres.size_group, hu]
  rw [takeWhile_run_stop (d1 ++ ',' :: (d2 ++ [')'])) (by decide) (by decide),
    dropWhile_run_stop (d1 ++ ',' :: (d2 ++ [')'])) (by decide) (by decide)]
  simp only [beq_self_eq_true, if_true]
  rw [takeWhile_run_stop (d2 ++ [')']) hd1 (by decide),
    dropWhile_run_stop (d2 ++ [')']) hd1 (by decide)]
  simp only [isEmpty_false_of_ne h1, Bool.false_eq_true, if_false,
    show ((',' : Char) == ')') = false by decide]
  rfl

/-- The SQLite type mapper on `DECIMAL(n,m)`: the stripper cannot remove the
two-number suffix, but the prefix lookup still hits the DECIMAL entry. -/
theorem lite_conv_decimal_nm {d1 d2 : Str} (h1 : d1 ≠ [])
    (hd1 : ∀ c ∈ d1, isDigitChar c = true) (hd2 : ∀ c ∈ d2, isDigitChar c = true) :
    Sqlite.convert_data_type ("DECIMAL".data ++ '(' :: (d1 ++ ',' :: (d2 ++ [')'])))
      = "REAL".data := by
  have hu : upperL ("DECIMAL".data ++ '(' :: (d1 ++ ',' :: (d2 ++ [')'])))
      = "DECIMAL".data ++ '(' :: (d1 ++ ',' :: (d2 ++ [')'])) := by
    simp only [upperL, List.map_append, List.map_cons, List.map_nil,
      map_toUpper_digits hd1, map_toUpper_digits hd2,
      show Char.toUpper '(' = '(' by decide, show Char.toUpper ')' = ')' by decide,
      show Char.toUpper ',' = ',' by decide,
      show List.map Char.toUpper "DECIMAL".data = "DECIMAL".data by decide]
  have hclean : ∀ c ∈ d1 ++ ',' :: (d2 ++ [')']), (c == '(') = false := by
    intro c hc
    rcases List.mem_append.1 hc with h | h
    · exact digit_ne_paren (hd1 c h)
    · rcases List.mem_cons.1 h with h | h
      · rw [h]; decide
      · rcases List.mem_append.1 h with h | h
        · exact digit_ne_paren (hd2 c h)
        · rw [List.mem_singleton.1 h]; decide
  have hrs : Sqlite.removeSizes ("DECIMAL".data ++ '(' :: (d1 ++ ',' :: (d2 ++ [')'])))
      = "DECIMAL".data ++ '(' :: (d1 ++ ',' :: (d2 ++ [')'])) := by
    unfold Sqlite.removeSizes
    rw [show ("DECIMAL".data ++ '(' :: (d1 ++ ',' :: (d2 ++ [')']))).length + 1
          = ("DECIMAL".data).length + ((d1.length + (d2.length + 3)) + 1) by
        simp [List.length_append]
        try omega]
    rw [removeSizesGo_clean "DECIMAL".data (by decide) _ _,
      removeSizesGo_paren_comma h1 hd1 (d2 ++ [')']) _]
    rw [removeSizesGo_all_clean (d1 ++ ',' :: (d2 ++ [')'])) hclean _ (by
        simp [List.length_append]
        try omega)]
  simp only [Sqlite.convert_data_type, hu, hrs]
  rfl

/-- C2, amended.  Every explicitly mapped source type token maps to its
documented target type.  Sized tokens VARCHAR(n), CHAR(n) and DECIMAL(n)
keep their single-number size suffix verbatim under the Postgres mapper,
while the two-number suffix of DECIMAL(n,m) cannot be captured by the size
group of line 48 and is dropped, yielding bare DECIMAL.  The SQLite mapper
discards the size in all of these cases (TEXT for VARCHAR/CHAR, REAL for
DECIMAL). -/
theorem claim_C2 :
    (∀ p ∈ Postgres.type_map, Postgres.convert_data_type p.1 = p.2) ∧
      (∀ p ∈ Sqlite.type_map, Sqlite.convert_data_type p.1 = p.2) ∧
      (∀ ds : Str, ds ≠ [] → (∀ c ∈ ds, isDigitChar c = true) →
        Postgres.convert_data_type ("VARCHAR".data ++ '(' :: (ds ++ [')']))
            = "VARCHAR".data ++ '(' :: (ds ++ [')']) ∧
          Postgres.convert_data_type ("CHAR".data ++ '(' :: (ds ++ [')']))
            = "CHAR".data ++ '(' :: (ds ++ [')']) ∧
          Postgres.convert_data_type ("DECIMAL".data ++ '(' :: (ds ++ [')']))
            = "DECIMAL".data ++ '(' :: (ds ++ [')']) ∧
          Sqlite.convert_data_type ("VARCHAR".data ++ '(' :: (ds ++ [')'])) = "TEXT".data ∧
          Sqlite.convert_data_type ("CHAR".data ++ '(' :: (ds ++ [')'])) = "TEXT".data ∧
          Sqlite.convert_data_type ("DECIMAL".data ++ '(' :: (ds ++ [')'])) = "REAL".data) ∧
      ∀ d1 d2 : Str, d1 ≠ [] → (∀ c ∈ d1, isDigitChar c = true) →
        (∀ c ∈ d2, isDigitChar c = true) →
        Postgres.convert_data_type ("DECIMAL".data ++ '(' :: (d1 ++ ',' :: (d2 ++ [')'])))
            = "DECIMAL".data ∧
          Sqlite.convert_data_type ("DECIMAL".data ++ '(' :: (d1 ++ ',' :: (d2 ++ [')'])))
            = "REAL".data := by
  refine ⟨by decide, by decide, ?_, ?_⟩
  · intro ds hne hds
    refine ⟨?_, ?_, ?_, ?_, ?_, ?_⟩
    · rw [pg_conv_append_size (by decide) (by decide) (by decide) hne hds]; rfl
    · rw [pg_conv_append_size (by decide) (by decide) (by decide) hne hds]; rfl
    · rw [pg_conv_append_size (by decide) (by decide) (by decide) hne hds]; rfl
    · rw [lite_conv_append_size (by decide) (by decide) hne hds]; rfl
    · rw [lite_conv_append_size (by decide) (by decide) hne hds]; rfl
    · rw [lite_conv_append_size (by decide) (by decide) hne hds]; rfl
  · intro d1 d2 h1 hd1 hd2
    exact ⟨pg_conv_decimal_nm h1 hd1 hd2, lite_conv_decimal_nm h1 hd1 hd2⟩

/-- C2, witness: concrete instances of every quantified part of C2. -/
theorem claim_C2_witness :
    Postgres.convert_data_type "INT".data = "INTEGER".data ∧
      Postgres.convert_data_type ("VARCHAR".data ++ '(' :: ("50".data ++ [')']))
        = "VARCHAR".data ++ '(' :: ("50".data ++ [')']) ∧
      Sqlite.convert_data_type ("VARCHAR".data ++ '(' :: ("50".data ++ [')'])) = "TEXT".data ∧
      Postgres.convert_data_type
          ("DECIMAL".data ++ '(' :: ("10".data ++ ',' :: ("2".data ++ [')'])))
        = "DECIMAL".data ∧
      Sqlite.convert_data_type
          ("DECIMAL".data ++ '(' :: ("10".data ++ ',' :: ("2".data ++ [')'])))
        = "REAL".data :=
  ⟨claim_C2.1 ("INT".data, "INTEGER".data) (by decide),
   (claim_C2.2.2.1 "50".data (by decide) (by decide)).1,
   (claim_C2.2.2.1 "50".data (by decide) (by decide)).2.2.2.1,
   (claim_C2.2.2.2 "10".data "2".data (by decide) (by decide) (by decide)).1,
   (claim_C2.2.2.2 "10".data "2".data (by decide) (by decide) (by decide)).2⟩

/-! ### Idempotence of the type mappers and the casing rule -/

theorem pg_conv_values : ∀ p ∈ Postgres.type_map, Postgres.convert_data_type p.2 = p.2 := by
  decide

theorem lite_conv_values : ∀ p ∈ Sqlite.type_map, Sqlite.convert_data_type p.2 = p.2 := by
  decide

/-- A successfully captured size group is a nonempty digit run. -/
theorem size_group_spec {u ds : Str} (h : Postgres.size_group u = some ds) :
    ds ≠ [] ∧ ∀ c ∈ ds, isDigitChar c = true := by
  unfold Postgres.size_group at h
  split at h
  · split at h
    · simp only at h
      split at h
      · exact absurd h (by simp)
      · rename_i hemp
        split at h
        · split at h
          · rw [Option.some.injEq] at h
            subst h
            refine ⟨fun hnil => hemp (by rw [hnil]; rfl),
              fun c hc => List.mem_takeWhile_imp hc⟩
          · exact absurd h (by simp)
        · exact absurd h (by simp)
    · exact absurd h (by simp)
  · exact absurd h (by simp)

theorem pg_conv_idem (t : Str) :
    Postgres.convert_data_type (Postgres.convert_data_type t)
      = Postgres.convert_data_type t := by
  by_cases hbase : ((upperL t).takeWhile isWordChar).isEmpty = true
  · have he : Postgres.convert_data_type t = t := by
      simp only [Postgres.convert_data_type]
      rw [if_pos hbase]
    rw [he]
    exact he
  · rcases hfind : Postgres.type_map.find? (fun p => p.1 == (upperL t).takeWhile isWordChar)
      with _ | p
    · have he : Postgres.convert_data_type t = t := by
        simp only [Postgres.convert_data_type]
        rw [if_neg hbase, hfind]
      rw [he]
      exact he
    · have hp2 : p ∈ Postgres.type_map := List.mem_of_find?_eq_some hfind
      have hkey := List.find?_some hfind
      rcases hsz : Postgres.size_group (upperL t) with _ | ds
      · have he : Postgres.convert_data_type t = p.2 := by
          simp only [Postgres.convert_data_type]
          rw [if_neg hbase, hfind, hsz]
        rw [he]
        exact pg_conv_values p hp2
      · by_cases hcont :
          (Postgres.sized_bases.contains ((upperL t).takeWhile isWordChar)) = true
        · have hmem : List.takeWhile isWordChar (upperL t) ∈ Postgres.sized_bases := by
            simpa using hcont
          have he : Postgres.convert_data_type t = p.2 ++ '(' :: (ds ++ [')']) := by
            simp only [Postgres.convert_data_type]
            rw [if_neg hbase, hfind, hsz]
            simp [hmem]
          obtain ⟨hne, hds⟩ := size_group_spec hsz
          have hcont1 : Postgres.sized_bases.contains p.1 = true := by
            rw [show p.1 = (upperL t).takeWhile isWordChar by simpa using hkey]
            exact hcont
          rw [he]
          fin_cases hp2 <;>
            first
              | exact absurd hcont1 (by decide)
              | (rw [pg_conv_append_size (by decide) (by decide) (by decide) hne hds]; rfl)
        · have hmem : List.takeWhile isWordChar (upperL t) ∉ Postgres.sized_bases := by
            simpa using hcont
          have he : Postgres.convert_data_type t = p.2 := by
            simp only [Postgres.convert_data_type]
            rw [if_neg hbase, hfind, hsz]
            simp [hmem]
          rw [he]
          exact pg_conv_values p hp2

theorem lite_conv_idem (t : Str) :
    Sqlite.convert_data_type (Sqlite.convert_data_type t) = Sqlite.convert_data_type t := by
  rcases hfind : Sqlite.type_map.find?
      (fun p => startsWithL p.1 (Sqlite.removeSizes (upperL t))) with _ | p
  · have he : Sqlite.convert_data_type t = "TEXT".data := by
      simp only [Sqlite.convert_data_type]
      rw [hfind]
    rw [he]
    decide
  · have he : Sqlite.convert_data_type t = p.2 := by
      simp only [Sqlite.convert_data_type]
      rw [hfind]
    rw [he]
    exact lite_conv_values p (List.mem_of_find?_eq_some hfind)

theorem lowerL_idem (s : Str) : lowerL (lowerL s) = lowerL s := by
  simp only [lowerL, List.map_map]
  exact List.map_congr_left fun c _ => toLower_idem c

/-- C5.  Both type mappers are idempotent on every string, and the
identifier-casing rule (lower-casing) is a fixed point on its own output:
re-running either pipeline on its own output changes no type token and no
identifier casing. -/
theorem claim_C5 :
    (∀ t : Str, Postgres.convert_data_type (Postgres.convert_data_type t)
        = Postgres.convert_data_type t) ∧
      (∀ t : Str, Sqlite.convert_data_type (Sqlite.convert_data_type t)
        = Sqlite.convert_data_type t) ∧
      (∀ s : Str, Postgres.convert_table_name (Postgres.convert_table_name s)
        = Postgres.convert_table_name s) ∧
      ∀ s : Str, Postgres.convert_column_name (Postgres.convert_column_name s)
        = Postgres.convert_column_name s :=
  ⟨pg_conv_idem, lite_conv_idem, lowerL_idem, lowerL_idem⟩

/-- C4.  Boolean literals in any letter case inside an INSERT INTO
statement: the Postgres Insert rewriter rewrites them to uppercase
TRUE/FALSE (also lower-casing the table name), the SQLite Insert rewriter
rewrites them to 1/0 and leaves the table name casing and the literal NULL
unchanged; in particular Scenario 2 of the spec holds. -/
theorem claim_C4 :
    (∀ w : Str, upperL w = "TRUE".data →
        Postgres.convert_insert ("INSERT INTO Users VALUES (".data ++ w ++ ");".data)
            = "INSERT INTO users VALUES (TRUE);".data ∧
          Sqlite.convert_insert ("INSERT INTO Users VALUES (".data ++ w ++ ");".data)
            = "INSERT INTO Users VALUES (1);".data) ∧
      (∀ w : Str, upperL w = "FALSE".data →
        Postgres.convert_insert ("INSERT INTO Users VALUES (".data ++ w ++ ");".data)
            = "INSERT INTO users VALUES (FALSE);".data ∧
          Sqlite.convert_insert ("INSERT INTO Users VALUES (".data ++ w ++ ");".data)
            = "INSERT INTO Users VALUES (0);".data) ∧
      Sqlite.convert_insert "INSERT INTO Users VALUES (1, 'Bob', TRUE);".data
          = "INSERT INTO Users VALUES (1, 'Bob', 1);".data ∧
      Sqlite.convert_insert "INSERT INTO t VALUES (NULL);".data
          = "INSERT INTO t VALUES (NULL);".data ∧
      Postgres.convert_insert "INSERT INTO t VALUES (NULL);".data
          = "INSERT INTO t VALUES (NULL);".data := by
  refine ⟨?_, ?_, by decide, by decide, by decide⟩
  · intro w h
    rcases w with _ | ⟨a, _ | ⟨b, _ | ⟨c, _ | ⟨d, _ | ⟨e, tl⟩⟩⟩⟩⟩ <;> simp [upperL] at h
    obtain ⟨h1, h2, h3, h4⟩ := h
    rcases @toUpper_inv a 'T' 't' (by decide) h1 with rfl | rfl <;>
      rcases @toUpper_inv b 'R' 'r' (by decide) h2 with rfl | rfl <;>
        rcases @toUpper_inv c 'U' 'u' (by decide) h3 with rfl | rfl <;>
          rcases @toUpper_inv d 'E' 'e' (by decide) h4 with rfl | rfl <;>
            exact ⟨by decide, by decide⟩
  · intro w h
    rcases w with _ | ⟨a, _ | ⟨b, _ | ⟨c, _ | ⟨d, _ | ⟨e, _ | ⟨f, tl⟩⟩⟩⟩⟩⟩ <;>
      simp [upperL] at h
    obtain ⟨h1, h2, h3, h4, h5⟩ := h
    rcases @toUpper_inv a 'F' 'f' (by decide) h1 with rfl | rfl <;>
      rcases @toUpper_inv b 'A' 'a' (by decide) h2 with rfl | rfl <;>
        rcases @toUpper_inv c 'L' 'l' (by decide) h3 with rfl | rfl <;>
          rcases @toUpper_inv d 'S' 's' (by decide) h4 with rfl | rfl <;>
            rcases @toUpper_inv e 'E' 'e' (by decide) h5 with rfl | rfl <;>
              exact ⟨by decide, by decide⟩

/-- C4, witness: mixed-case instances of the quantified parts. -/
theorem claim_C4_witness :
    Postgres.convert_insert ("INSERT INTO Users VALUES (".data ++ "tRuE".data ++ ");".data)
        = "INSERT INTO users VALUES (TRUE);".data ∧
      Sqlite.convert_insert ("INSERT INTO Users VALUES (".data ++ "FaLsE".data ++ ");".data)
        = "INSERT INTO Users VALUES (0);".data :=
  ⟨(claim_C4.1 "tRuE".data (by decide)).1, (claim_C4.2.1 "FaLsE".data (by decide)).2⟩

/-! ### Pipeline lemmas: skipping, segmentation, tallies -/

theorem dropWhile_nil_of_all {p : Char → Bool} {l : Str} (h : ∀ c ∈ l, p c = true) :
    l.dropWhile p = [] := by
  induction l with
  | nil => rfl
  | cons c cs ih =>
    rw [List.dropWhile_cons, if_pos (h c (List.mem_cons_self c cs))]
    exact ih fun a ha => h a (List.mem_cons_of_mem c ha)

theorem lite_skip_not_blank {l : Str} (h : Sqlite.should_skip_line l = true) :
    isBlankL l = false := by
  rcases hb : isBlankL l with _ | _
  · rfl
  · have hall : ∀ c ∈ l, isPySpace c = true := by
      simpa [isBlankL, List.all_eq_true] using hb
    have hdrop : l.dropWhile isPySpace = [] := dropWhile_nil_of_all hall
    have hfalse : Sqlite.should_skip_line l = false := by
      unfold Sqlite.should_skip_line
      rw [hdrop]
      rfl
    rw [hfalse] at h
    exact absurd h (by simp)

theorem lite_step_skip {l : Str} (h : Sqlite.should_skip_line l = true) (st : Sqlite.St) :
    Sqlite.step st l = { st with skipped_lines := st.skipped_lines + 1 } := by
  simp [Sqlite.step, lite_skip_not_blank h, h]

theorem lite_step_shift (st : Sqlite.St) (l : Str) :
    Sqlite.step { st with skipped_lines := st.skipped_lines + 1 } l
      = { Sqlite.step st l with
          skipped_lines := (Sqlite.step st l).skipped_lines + 1 } := by
  cases st
  unfold Sqlite.step
  dsimp only
  split_ifs <;> rfl

theorem lite_fold_shift (lines : List Str) (st : Sqlite.St) :
    List.foldl Sqlite.step { st with skipped_lines := st.skipped_lines + 1 } lines
      = { List.foldl Sqlite.step st lines with
          skipped_lines := (List.foldl Sqlite.step st lines).skipped_lines + 1 } := by
  induction lines generalizing st with
  | nil => rfl
  | cons l ls ih =>
    rw [List.foldl_cons, List.foldl_cons, lite_step_shift st l, ih (Sqlite.step st l)]

/-- Inserting a line the SQLite skip list matches anywhere in the input
only bumps the skipped-line counter. -/
theorem lite_run_insert_skip {l : Str} (h : Sqlite.should_skip_line l = true)
    (pre post : List Str) :
    Sqlite.runLines (pre ++ l :: post)
      = { Sqlite.runLines (pre ++ post) with
          skipped_lines := (Sqlite.runLines (pre ++ post)).skipped_lines + 1 } := by
  unfold Sqlite.runLines
  rw [List.foldl_append, List.foldl_append, List.foldl_cons, lite_step_skip h,
    lite_fold_shift]

theorem pg_segStep_skip {l : Str} (h : Postgres.should_skip_line l = true)
    (st : List Str × List Str) : Postgres.segStep st l = st := by
  simp [Postgres.segStep, h]

/-- Inserting a line the Postgres skip list matches anywhere in the input
leaves the whole pipeline result unchanged. -/
theorem pg_insert_skip {l : Str} (h : Postgres.should_skip_line l = true)
    (pre post : List Str) :
    Postgres.convertLines (pre ++ l :: post) = Postgres.convertLines (pre ++ post) := by
  have hseg : Postgres.segmentLines (pre ++ l :: post)
      = Postgres.segmentLines (pre ++ post) := by
    unfold Postgres.segmentLines
    rw [List.foldl_append, List.foldl_append, List.foldl_cons, pg_segStep_skip h]
  simp only [Postgres.convertLines, hseg]

theorem pg_segStep_no_semi {l : Str} (h : l.contains ';' = false)
    (st : List Str × List Str) : (Postgres.segStep st l).1 = st.1 := by
  unfold Postgres.segStep
  split_ifs <;> simp_all

theorem pg_fold_no_semi {tail : List Str} (h : ∀ l ∈ tail, l.contains ';' = false)
    (st : List Str × List Str) : (List.foldl Postgres.segStep st tail).1 = st.1 := by
  induction tail generalizing st with
  | nil => rfl
  | cons l ls ih =>
    rw [List.foldl_cons]
    rw [ih fun a ha => h a (List.mem_cons_of_mem l ha)]
    exact pg_segStep_no_semi (h l (List.mem_cons_self l ls)) st

theorem splitNl_ne_nil (s : Str) : splitNl s ≠ [] := by
  induction s with
  | nil => simp [splitNl]
  | cons c cs ih =>
    unfold splitNl
    split_ifs
    · simp
    · rcases hs : splitNl cs with _ | ⟨l, ls⟩ <;> simp

theorem splitNl_cons_ne {c : Char} (cs : Str) (h : (c == '\n') = false) :
    splitNl (c :: cs) =
      match splitNl cs with
      | [] => [[c]]
      | l :: ls => (c :: l) :: ls := by
  conv_lhs => unfold splitNl
  simp only [h, Bool.false_eq_true, if_false]

theorem splitNl_append (a b : Str) : splitNl (a ++ '\n' :: b) = splitNl a ++ splitNl b := by
  induction a with
  | nil => simp [splitNl]
  | cons c cs ih =>
    by_cases hc : c = '\n'
    · subst hc
      simp [splitNl, ih]
    · have hcb : (c == '\n') = false := by simpa using hc
      rw [List.cons_append, splitNl_cons_ne (cs ++ '\n' :: b) hcb,
        splitNl_cons_ne cs hcb, ih]
      rcases hs : splitNl cs with _ | ⟨l, ls⟩
      · exact absurd hs (splitNl_ne_nil cs)
      · simp

theorem mem_of_mem_splitNl {c : Char} {l s : Str} (hl : l ∈ splitNl s) (hc : c ∈ l) :
    c ∈ s := by
  induction s generalizing l with
  | nil =>
    simp [splitNl] at hl
    subst hl
    exact absurd hc (by simp)
  | cons d cs ih =>
    unfold splitNl at hl
    by_cases hd : d = '\n'
    · subst hd
      simp only [beq_self_eq_true, if_true, List.mem_cons] at hl
      rcases hl with rfl | hl
      · exact absurd hc (by simp)
      · exact List.mem_cons_of_mem _ (ih hl hc)
    · have hdb : (d == '\n') = false := by simpa using hd
      simp only [hdb, Bool.false_eq_true, if_false] at hl
      rcases hs : splitNl cs with _ | ⟨l2, ls⟩
      · rw [hs] at hl
        simp at hl
        subst hl
        rcases List.mem_singleton.1 hc with rfl
        exact List.mem_cons_self c cs
      · rw [hs] at hl
        rcases List.mem_cons.1 hl with rfl | hl2
        · rcases List.mem_cons.1 hc with rfl | hc2
          · exact List.mem_cons_self c cs
          · have : c ∈ cs := ih (by rw [hs]; exact List.mem_cons_self l2 ls) hc2
            exact List.mem_cons_of_mem d this
        · have : c ∈ cs := ih (by rw [hs]; exact List.mem_cons_of_mem l2 hl2) hc
          exact List.mem_cons_of_mem d this

theorem lite_step_buffering {st : Sqlite.St} {l : Str} (hct : st.in_create_table = true)
    (hsemi : l.contains ';' = false) :
    (Sqlite.step st l).converted = st.converted ∧
      (Sqlite.step st l).in_create_table = true ∧
      (Sqlite.step st l).create_tables = st.create_tables ∧
      (Sqlite.step st l).inserts = st.inserts := by
  unfold Sqlite.step
  split_ifs <;> simp_all

theorem lite_fold_buffering {tail : List Str} (h : ∀ l ∈ tail, l.contains ';' = false)
    (st : Sqlite.St) (hct : st.in_create_table = true) :
    (List.foldl Sqlite.step st tail).converted = st.converted ∧
      (List.foldl Sqlite.step st tail).in_create_table = true ∧
      (List.foldl Sqlite.step st tail).create_tables = st.create_tables ∧
      (List.foldl Sqlite.step st tail).inserts = st.inserts := by
  induction tail generalizing st with
  | nil => exact ⟨rfl, hct, rfl, rfl⟩
  | cons l ls ih =>
    rw [List.foldl_cons]
    have hstep := lite_step_buffering hct (h l (List.mem_cons_self l ls))
    have hrest := ih (fun a ha => h a (List.mem_cons_of_mem l ha)) (Sqlite.step st l) hstep.2.1
    exact ⟨hrest.1.trans hstep.1, hrest.2.1,
      hrest.2.2.1.trans hstep.2.2.1, hrest.2.2.2.trans hstep.2.2.2⟩

theorem bump_total (k : Postgres.Kind) (s : Postgres.Stats) :
    (Postgres.bump k s).total = s.total + 1 := by
  cases k <;> simp [Postgres.bump, Postgres.Stats.total] <;> omega

theorem statsOf_aux (stmts : List Str) (init : Postgres.Stats) :
    (List.foldl (fun st stmt => Postgres.bump (Postgres.classify stmt) st) init stmts).total
      = init.total + stmts.length := by
  induction stmts generalizing init with
  | nil => simp
  | cons s ss ih =>
    rw [List.foldl_cons, ih, bump_total]
    simp [Nat.add_comm, Nat.add_assoc, Nat.add_left_comm]

/-- C8.  Classification is a total function tested in the fixed priority
order of the dispatch chain: every segmented statement gets exactly one
kind, bumps exactly one counter and contributes exactly one rewritten
statement, so the tally total equals the number of segmented statements and
the converted list has the same length as the statement list. -/
theorem claim_C8 (content : Str) :
    ((Postgres.convert_h2_to_postgres content).2).total
        = (Postgres.segmentLines (splitNl content)).length ∧
      (Postgres.convertedOf (Postgres.segmentLines (splitNl content))).length
        = (Postgres.segmentLines (splitNl content)).length ∧
      ∀ stmt : Str, ∃! k : Postgres.Kind, Postgres.classify stmt = k := by
  refine ⟨?_, by simp [Postgres.convertedOf], fun stmt => ⟨Postgres.classify stmt, rfl,
    fun k hk => hk.symm⟩⟩
  show (Postgres.statsOf (Postgres.segmentLines (splitNl content))).total = _
  unfold Postgres.statsOf
  rw [statsOf_aux]
  simp [Postgres.Stats.zero, Postgres.Stats.total]

/-- C6.  A line matching a skip pattern has no effect on either pipeline:
inserting it anywhere in the line stream leaves the Postgres output text
and per-kind tally unchanged, and leaves the whole SQLite state unchanged
except for the skipped-line counter; in particular the GRANT line of
Scenario 4 matches both skip lists, so it is dropped from both outputs and
counted in no statement-kind tally. -/
theorem claim_C6 :
    (∀ (l : Str) (pre post : List Str), Postgres.should_skip_line l = true →
        Postgres.convertLines (pre ++ l :: post) = Postgres.convertLines (pre ++ post)) ∧
      (∀ (l : Str) (pre post : List Str), Sqlite.should_skip_line l = true →
        Sqlite.runLines (pre ++ l :: post)
          = { Sqlite.runLines (pre ++ post) with
              skipped_lines := (Sqlite.runLines (pre ++ post)).skipped_lines + 1 }) ∧
      Postgres.should_skip_line "GRANT SELECT ON Users TO admin;".data = true ∧
      Sqlite.should_skip_line "GRANT SELECT ON Users TO admin;".data = true :=
  ⟨fun _ pre post h => pg_insert_skip h pre post,
    fun _ pre post h => lite_run_insert_skip h pre post, by decide, by decide⟩

/-- C6, witness: dropping the GRANT line of Scenario 4 concretely. -/
theorem claim_C6_witness :
    Postgres.convertLines ([] ++ "GRANT SELECT ON Users TO admin;".data
          :: ["SELECT 1;".data])
        = Postgres.convertLines ([] ++ ["SELECT 1;".data]) ∧
      Sqlite.runLines ([] ++ "GRANT SELECT ON Users TO admin;".data
          :: ["SELECT 1;\n".data])
        = { Sqlite.runLines ([] ++ ["SELECT 1;\n".data]) with
            skipped_lines :=
              (Sqlite.runLines ([] ++ ["SELECT 1;\n".data])).skipped_lines + 1 } :=
  ⟨claim_C6.1 "GRANT SELECT ON Users TO admin;".data [] ["SELECT 1;".data] (by decide),
    claim_C6.2.1 "GRANT SELECT ON Users TO admin;".data [] ["SELECT 1;\n".data] (by decide)⟩

/-- C7.  A trailing accumulation with no semicolon at end of input is
silently dropped.  For the Postgres pipeline, appending any semicolon-free
suffix (as a fresh line) to the input changes neither the output nor the
tally.  For the SQLite pipeline, when the run ends inside a CREATE TABLE
buffer, appending further semicolon-free lines changes neither the emitted
lines nor the CREATE TABLE / INSERT counters: the buffer is never
flushed. -/
theorem claim_C7 :
    (∀ content tailC : Str, ';' ∉ tailC →
        Postgres.convert_h2_to_postgres (content ++ '\n' :: tailC)
          = Postgres.convert_h2_to_postgres content) ∧
      ∀ (lines tailL : List Str), (Sqlite.runLines lines).in_create_table = true →
        (∀ l ∈ tailL, l.contains ';' = false) →
        (Sqlite.runLines (lines ++ tailL)).converted = (Sqlite.runLines lines).converted ∧
          (Sqlite.runLines (lines ++ tailL)).create_tables
            = (Sqlite.runLines lines).create_tables ∧
          (Sqlite.runLines (lines ++ tailL)).inserts = (Sqlite.runLines lines).inserts := by
  constructor
  · intro content tailC h
    have hlines : ∀ l ∈ splitNl tailC, l.contains ';' = false := by
      intro l hl
      rcases hcon : l.contains ';' with _ | _
      · rfl
      · have hmem : (';' : Char) ∈ l := by simpa using hcon
        exact absurd (mem_of_mem_splitNl hl hmem) h
    unfold Postgres.convert_h2_to_postgres
    rw [splitNl_append]
    have hseg : Postgres.segmentLines (splitNl content ++ splitNl tailC)
        = Postgres.segmentLines (splitNl content) := by
      unfold Postgres.segmentLines
      rw [List.foldl_append]
      exact pg_fold_no_semi hlines _
    simp only [Postgres.convertLines, hseg]
  · intro lines tailL hct h
    have hrun : Sqlite.runLines (lines ++ tailL)
        = List.foldl Sqlite.step (Sqlite.runLines lines) tailL := by
      unfold Sqlite.runLines
      rw [List.foldl_append]
    rw [hrun]
    have hf := lite_fold_buffering h (Sqlite.runLines lines) hct
    exact ⟨hf.1, hf.2.2.1, hf.2.2.2⟩

/-- C7, witness: a trailing unterminated CREATE TABLE is dropped by the
Postgres pipeline, and the SQLite pipeline ignores further semicolon-free
lines once inside an unterminated CREATE TABLE buffer. -/
theorem claim_C7_witness :
    (';' ∉ "CREATE TABLE t (".data ∧
        Postgres.convert_h2_to_postgres
            ("INSERT INTO t VALUES (1);".data ++ '\n' :: "CREATE TABLE t (".data)
          = Postgres.convert_h2_to_postgres "INSERT INTO t VALUES (1);".data) ∧
      (Sqlite.runLines ["CREATE TABLE t (\n".data]).in_create_table = true ∧
        (Sqlite.runLines (["CREATE TABLE t (\n".data] ++ ["  id INTEGER\n".data])).converted
          = (Sqlite.runLines ["CREATE TABLE t (\n".data]).converted :=
  ⟨⟨by decide, claim_C7.1 "INSERT INTO t VALUES (1);".data "CREATE TABLE t (".data
      (by decide)⟩,
    by decide,
    (claim_C7.2 ["CREATE TABLE t (\n".data] ["  id INTEGER\n".data] (by decide)
      (by decide)).1⟩

/-- C10.  Lines whose first non-whitespace characters are a SQL comment
marker match the SQLite skip list (pattern of line 101) but no Postgres
skip pattern: the SQLite pipeline drops such a line wherever it appears,
counting it only as a skipped line, while the Postgres segmenter
accumulates it into the current statement (when it carries no
semicolon). -/
theorem claim_C10 (ws rest : Str) (hws : ∀ c ∈ ws, isPySpace c = true) :
    Sqlite.should_skip_line (ws ++ '-' :: '-' :: rest) = true ∧
      Postgres.should_skip_line (ws ++ '-' :: '-' :: rest) = false ∧
      (∀ pre post : List Str,
        Sqlite.runLines (pre ++ (ws ++ '-' :: '-' :: rest) :: post)
          = { Sqlite.runLines (pre ++ post) with
              skipped_lines := (Sqlite.runLines (pre ++ post)).skipped_lines + 1 }) ∧
      ((ws ++ '-' :: '-' :: rest).contains ';' = false →
        ∀ st : List Str × List Str,
          Postgres.segStep st (ws ++ '-' :: '-' :: rest)
            = (st.1, st.2 ++ [ws ++ '-' :: '-' :: rest])) := by
  have hdw : (ws ++ '-' :: '-' :: rest).dropWhile isPySpace = '-' :: '-' :: rest := by
    rw [dropWhile_append_of_all ('-' :: '-' :: rest) hws]
    rfl
  have hsq : Sqlite.should_skip_line (ws ++ '-' :: '-' :: rest) = true := by
    unfold Sqlite.should_skip_line
    rw [hdw]
    rfl
  have hpg : Postgres.should_skip_line (ws ++ '-' :: '-' :: rest) = false := by
    unfold Postgres.should_skip_line
    rw [hdw]
    rfl
  refine ⟨hsq, hpg, fun pre post => lite_run_insert_skip hsq pre post, fun hsemi st => ?_⟩
  have hblank : isBlankL (ws ++ '-' :: '-' :: rest) = false := by
    simp [isBlankL, List.all_append, show isPySpace '-' = false from rfl]
  have hsemi2 : (';' ∉ ws) ∧ (';' ∉ rest) := by simpa using hsemi
  simp [Postgres.segStep, hblank, hpg, hsemi2.1, hsemi2.2]

/-- C10, witness: a concrete indented comment line. -/
theorem claim_C10_witness :
    Sqlite.should_skip_line ("  ".data ++ '-' :: '-' :: " drop me".data) = true ∧
      Postgres.should_skip_line ("  ".data ++ '-' :: '-' :: " drop me".data) = false ∧
      Postgres.segStep ([], []) ("  ".data ++ '-' :: '-' :: " drop me".data)
        = ([], [("  ".data ++ '-' :: '-' :: " drop me".data)]) :=
  ⟨(claim_C10 "  ".data " drop me".data (by decide)).1,
    (claim_C10 "  ".data " drop me".data (by decide)).2.1,
    (claim_C10 "  ".data " drop me".data (by decide)).2.2.2 (by decide) ([], [])⟩
